import Mathlib

/-!
Shallow embedding of the spherical geometry library of `tomography-models`
(`plotting/spherical.py`) and the great-circle path generator
(`fill_great_circle` in `plotting/xsection.py`).

Numeric arrays of 3-vectors (numpy shape `(3,)`) are modelled as `Vec3`,
2-vectors as `Vec2`, and batches (numpy shape `(N,3)` / `(N,2)`) as lists;
numpy's elementwise operations along the last axis act row by row, so the
batch versions of the transforms are row-wise maps of the single-point
versions.  Machine floats are modelled as exact reals; the IEEE NaN
behaviour of the `r = 0` polar-angle computation is modelled separately by
`cart2sphF` with `Option ℝ` components (`none` = NaN).  Python exceptions
(the `assert` in `great_circle_distance`) are modelled with `Except`.
-/

/-- A 3-component point (one row of a numpy `(N,3)` array, or a `(3,)` array). -/
@[ext]
structure Vec3 where
  c0 : ℝ
  c1 : ℝ
  c2 : ℝ

/-- A 2-component point (one row of a numpy `(N,2)` array, or a `(2,)` array). -/
@[ext]
structure Vec2 where
  c0 : ℝ
  c1 : ℝ

/-- Model of `numpy.arctan2 y x`: the angle of the point `(x, y)` in `(-π, π]`, with
`arctan2 0 0 = 0`.  This is exactly the argument of the complex number
`x + y·i`, with `Complex.arg 0 = 0`. -/
noncomputable def arctan2 (y x : ℝ) : ℝ := Complex.arg ⟨x, y⟩

/-- Model of `numpy.linalg.norm` of a 3-vector along the last axis: the Euclidean norm. -/
noncomputable def norm3 (v : Vec3) : ℝ := Real.sqrt (v.c0 ^ 2 + v.c1 ^ 2 + v.c2 ^ 2)

/-- Model of `numpy.linalg.norm` of a 2-vector along the last axis: the Euclidean norm. -/
noncomputable def norm2 (v : Vec2) : ℝ := Real.sqrt (v.c0 ^ 2 + v.c1 ^ 2)

/-- Model of `numpy.deg2rad`. -/
noncomputable def deg2rad (x : ℝ) : ℝ := x * (Real.pi / 180)

/-- Model of `numpy.rad2deg`. -/
noncomputable def rad2deg (x : ℝ) : ℝ := x * (180 / Real.pi)

/-- Function `cart2sph` (spherical.py lines 4-24) on a single `(3,)` point:
component 0 = `numpy.linalg.norm` of the row, component 1 =
`arctan2(y, x)` from the original cartesian components, component 2 =
`arccos(z / r)`; if `degrees`, components 1 and 2 (the slice `[...,1:]`)
are converted from radians to degrees afterwards. -/
noncomputable def cart2sph (v : Vec3) (degrees : Bool := false) : Vec3 :=
  let r := norm3 v
  let az := arctan2 v.c1 v.c0
  let pol := Real.arccos (v.c2 / r)
  if degrees then ⟨r, rad2deg az, rad2deg pol⟩ else ⟨r, az, pol⟩

/-- Function `sph2cart` (spherical.py lines 27-47) on a single `(3,)` point:
if `degrees`, components 1 and 2 are first converted to radians; then
`x = r·cos θ·sin φ`, `y = r·sin θ·sin φ`, `z = r·cos φ`. -/
noncomputable def sph2cart (s : Vec3) (degrees : Bool := false) : Vec3 :=
  let az := if degrees then deg2rad s.c1 else s.c1
  let pol := if degrees then deg2rad s.c2 else s.c2
  ⟨s.c0 * Real.cos az * Real.sin pol,
   s.c0 * Real.sin az * Real.sin pol,
   s.c0 * Real.cos pol⟩

/-- Function `geo2sph` (spherical.py lines 50-65) on a single `(3,)` point
`(radius, lon, lat)`: the last component becomes `90 - lat`; unless
`degrees`, the last two components are converted from degrees to radians.
The radius passes through unchanged. -/
noncomputable def geo2sph3 (g : Vec3) (degrees : Bool := false) : Vec3 :=
  let pol := 90 - g.c2
  if degrees then ⟨g.c0, g.c1, pol⟩ else ⟨g.c0, deg2rad g.c1, deg2rad pol⟩

/-- Function `geo2sph` on a single `(2,)` point `(lon, lat)`: the trailing slice
`[...,-2:]` is the whole row, so both components are converted unless
`degrees`. -/
noncomputable def geo2sph2 (g : Vec2) (degrees : Bool := false) : Vec2 :=
  let pol := 90 - g.c1
  if degrees then ⟨g.c0, pol⟩ else ⟨deg2rad g.c0, deg2rad pol⟩

/-- Function `sph2geo` (spherical.py lines 68-83) on a single `(3,)` point
`(radius, azimuth, polar)`: unless `degrees`, the last two components are
first converted from radians to degrees; then the last component becomes
`90 - polar`. -/
noncomputable def sph2geo3 (s : Vec3) (degrees : Bool := false) : Vec3 :=
  let az := if degrees then s.c1 else rad2deg s.c1
  let pol := if degrees then s.c2 else rad2deg s.c2
  ⟨s.c0, az, 90 - pol⟩

/-- Function `sph2geo` on a single `(2,)` point `(azimuth, polar)`. -/
noncomputable def sph2geo2 (s : Vec2) (degrees : Bool := false) : Vec2 :=
  let az := if degrees then s.c0 else rad2deg s.c0
  let pol := if degrees then s.c1 else rad2deg s.c1
  ⟨az, 90 - pol⟩

/-- Function `cart2polar` (spherical.py lines 86-105) on a single `(2,)` point:
component 0 = Euclidean norm, component 1 = `arctan2(y, x)`, with the
azimuth converted to degrees when requested. -/
noncomputable def cart2polar (v : Vec2) (degrees : Bool := false) : Vec2 :=
  let r := norm2 v
  let az := arctan2 v.c1 v.c0
  if degrees then ⟨r, rad2deg az⟩ else ⟨r, az⟩

/-- Function `cart2sph` on a `(N,3)` array: numpy computes each output column
elementwise over rows, which is the row-wise map of the single-point
transform. -/
noncomputable def cart2sphB (l : List Vec3) (degrees : Bool := false) : List Vec3 :=
  l.map (fun v => cart2sph v degrees)

/-- Function `sph2cart` on a `(N,3)` array. -/
noncomputable def sph2cartB (l : List Vec3) (degrees : Bool := false) : List Vec3 :=
  l.map (fun v => sph2cart v degrees)

/-- Function `geo2sph` on a `(N,3)` array. -/
noncomputable def geo2sph3B (l : List Vec3) (degrees : Bool := false) : List Vec3 :=
  l.map (fun v => geo2sph3 v degrees)

/-- Function `geo2sph` on a `(N,2)` array. -/
noncomputable def geo2sph2B (l : List Vec2) (degrees : Bool := false) : List Vec2 :=
  l.map (fun v => geo2sph2 v degrees)

/-- Function `sph2geo` on a `(N,3)` array. -/
noncomputable def sph2geo3B (l : List Vec3) (degrees : Bool := false) : List Vec3 :=
  l.map (fun v => sph2geo3 v degrees)

/-- Function `sph2geo` on a `(N,2)` array. -/
noncomputable def sph2geo2B (l : List Vec2) (degrees : Bool := false) : List Vec2 :=
  l.map (fun v => sph2geo2 v degrees)

/-- Function `cart2polar` on a `(N,2)` array. -/
noncomputable def cart2polarB (l : List Vec2) (degrees : Bool := false) : List Vec2 :=
  l.map (fun v => cart2polar v degrees)

/-- Function `great_circle_distance` (spherical.py lines 108-127) on single points.
The `sphere_radius` parameter defaults to Python `False`, modelled as
`none`; `some r` models a float override, and the source's truthiness test
`if not sphere_radius` treats `False` and `0.0` alike, so `some 0` also
falls back to the first array's radial component.  The leading
`assert coordinate_system in ['spherical', 'cartesian']` is modelled as the
`Except.error` branch.  In the source, `phi` names the azimuth (component
1) and `theta` the polar angle (component 2). -/
noncomputable def great_circle_distance (array_1 array_2 : Vec3)
    (coordinate_system : String := "spherical")
    (sphere_radius : Option ℝ := none) : Except String ℝ :=
  if coordinate_system = "spherical" ∨ coordinate_system = "cartesian" then
    let a1 := if coordinate_system = "cartesian" then cart2sph array_1 else array_1
    let a2 := if coordinate_system = "cartesian" then cart2sph array_2 else array_2
    let r : ℝ := match sphere_radius with
      | none => a1.c0
      | some s => if s = 0 then a1.c0 else s
    let phi_1 := a1.c1
    let phi_2 := a2.c1
    let theta_1 := a1.c2
    let theta_2 := a2.c2
    Except.ok (2 * r * Real.arcsin (Real.sqrt
      ((1 - Real.cos (theta_2 - theta_1)) / 2 +
        Real.sin theta_1 * Real.sin theta_2 *
          ((1 - Real.cos (phi_2 - phi_1)) / 2))))
  else
    Except.error "AssertionError"

/-- The radius `great_circle_distance` actually uses, as selected by
spherical.py lines 114-119: the override when it is truthy, otherwise the
first array's radial component (after any cartesian → spherical
conversion). -/
noncomputable def used_radius (array_1 : Vec3) (coordinate_system : String)
    (sphere_radius : Option ℝ) : ℝ :=
  let a1 := if coordinate_system = "cartesian" then cart2sph array_1 else array_1
  match sphere_radius with
  | none => a1.c0
  | some s => if s = 0 then a1.c0 else s

/-- IEEE division, with `none` standing for a result that is not a finite
real: `0/0` is NaN and `x/0` for `x ≠ 0` is `±∞` (which `arccos` then maps
to NaN anyway). -/
noncomputable def ieee_div (x y : ℝ) : Option ℝ :=
  if y = 0 then none else some (x / y)

/-- IEEE `arccos`: NaN propagates, and arguments outside `[-1, 1]` give
NaN. -/
noncomputable def ieee_arccos : Option ℝ → Option ℝ
  | none => none
  | some t => if |t| ≤ 1 then some (Real.arccos t) else none

/-- IEEE-float refinement of `cart2sph` (radians), tracking the NaN
produced by the division `z / r` at `r = 0` (spherical.py line 18):
`none` components model NaN.  The function is total — like the Python
code, it returns an array and raises no exception. -/
noncomputable def cart2sphF (v : Vec3) : Option ℝ × Option ℝ × Option ℝ :=
  (some (norm3 v),
   some (arctan2 v.c1 v.c0),
   ieee_arccos (ieee_div v.c2 (norm3 v)))

/-- Dot product of two rows, `numpy.dot` on `(3,)` arrays. -/
noncomputable def dot3 (a b : Vec3) : ℝ := a.c0 * b.c0 + a.c1 * b.c1 + a.c2 * b.c2

/-- The angular separation computed by `fill_great_circle`
(xsection.py lines 25-33): attach unit radii to the two geographic
points, convert geo → spherical → cartesian, and take
`rad2deg (arccos (dot c0 c1))`. -/
noncomputable def fgc_angle (g0 g1 : Vec2) : ℝ :=
  let c0 := sph2cart (geo2sph3 ⟨1, g0.c0, g0.c1⟩)
  let c1 := sph2cart (geo2sph3 ⟨1, g1.c0, g1.c1⟩)
  rad2deg (Real.arccos (dot3 c0 c1))

/-- The sample count `n_pts = int(numpy.ceil(angle / res))` of
`fill_great_circle` (xsection.py line 33); `ceil` already yields an
integer value, so `int` only changes the type. -/
noncomputable def fgc_npts (g0 g1 : Vec2) (res : ℝ) : ℤ :=
  ⌈fgc_angle g0 g1 / res⌉

/-- C2: for every 3-vector input, `cart2sph` returns component 0 = the
Euclidean norm of the input, component 1 = `arctan2(y, x)` from the
original cartesian components, component 2 = `arccos(z / r)`; with
`degrees = true`, exactly components 1 and 2 are converted from radians to
degrees after computation and the radial component is unchanged; on a
batch, row `i` of the output is the transform of row `i` of the input. -/
theorem cart2sph_components :
    (∀ v : Vec3,
      (cart2sph v).c0 = Real.sqrt (v.c0 ^ 2 + v.c1 ^ 2 + v.c2 ^ 2) ∧
      (cart2sph v).c1 = arctan2 v.c1 v.c0 ∧
      (cart2sph v).c2 = Real.arccos (v.c2 / norm3 v) ∧
      cart2sph v true =
        ⟨(cart2sph v).c0, rad2deg (cart2sph v).c1, rad2deg (cart2sph v).c2⟩) ∧
    (∀ (l : List Vec3) (d : Bool) (i : ℕ),
      (cart2sphB l d)[i]? = (l[i]?).map (fun v => cart2sph v d)) := by
  constructor
  · intro v
    refine ⟨rfl, rfl, rfl, ?_⟩
    simp [cart2sph]
  · intro l d i
    simp [cart2sphB]

/-- C5: an invalid `coordinate_system` string makes `great_circle_distance`
fail with the assertion error before any computation, for every pair of
inputs and every radius override; there is no silent default. -/
theorem great_circle_distance_invalid_system (a b : Vec3) (sr : Option ℝ)
    (cs : String) (h1 : cs ≠ "spherical") (h2 : cs ≠ "cartesian") :
    great_circle_distance a b cs sr = Except.error "AssertionError" := by
  simp [great_circle_distance, h1, h2]

/-- Witness for C5 at a concrete invalid coordinate system. -/
theorem great_circle_distance_invalid_system_witness :
    great_circle_distance ⟨1, 2, 3⟩ ⟨4, 5, 6⟩ "geodetic" none =
      Except.error "AssertionError" :=
  great_circle_distance_invalid_system _ _ _ _ (by decide) (by decide)

/-- C10: a `sphere_radius = 0` override is falsy under the source's
`if not sphere_radius` test, so the call behaves exactly as if no override
had been supplied: the radius comes from the first array's radial
component. -/
theorem sphere_radius_zero_ignored (a b : Vec3) (cs : String) :
    great_circle_distance a b cs (some 0) = great_circle_distance a b cs none := by
  simp [great_circle_distance]

/-- C7: at the origin (zero Euclidean norm) `cart2sphF` — the IEEE-float
refinement of `cart2sph`, which like the Python code is total and raises
no exception — returns radial component 0 and a NaN (`none`) polar
component, the NaN produced by the division `z / r` at `r = 0`. -/
theorem cart2sph_origin_nan (v : Vec3) (h : norm3 v = 0) :
    (cart2sphF v).1 = some 0 ∧ (cart2sphF v).2.2 = none := by
  constructor
  · simp [cart2sphF, h]
  · simp [cart2sphF, ieee_div, ieee_arccos, h]

/-- Witness for C7 at the concrete origin input. -/
theorem cart2sph_origin_nan_witness :
    norm3 ⟨0, 0, 0⟩ = 0 ∧
      ((cart2sphF ⟨0, 0, 0⟩).1 = some 0 ∧ (cart2sphF ⟨0, 0, 0⟩).2.2 = none) := by
  have h : norm3 (⟨0, 0, 0⟩ : Vec3) = 0 := by simp [norm3]
  exact ⟨h, cart2sph_origin_nan _ h⟩

/-- Value `arcsin √(1/2) = π/4`, the value of the haversine arcsine for two
equatorial points 90 degrees apart. -/
theorem arcsin_sqrt_half : Real.arcsin (Real.sqrt (1 / 2)) = Real.pi / 4 := by
  have h2 : Real.sqrt (1 / 2) = Real.sqrt 2 / 2 := by
    rw [show (1 : ℝ) / 2 = (Real.sqrt 2 / 2) ^ 2 by
      rw [div_pow, Real.sq_sqrt (by norm_num : (0 : ℝ) ≤ 2)]; norm_num]
    exact Real.sqrt_sq (by positivity)
  rw [h2, ← Real.sin_pi_div_four]
  exact Real.arcsin_sin (by linarith [Real.pi_pos]) (by linarith [Real.pi_pos])

/-- Evaluation of `great_circle_distance` in the spherical system with no
override: the haversine formula scaled by the first point's radial
component. -/
theorem gcd_spherical_eval (r1 r2 az1 az2 pol1 pol2 : ℝ) :
    great_circle_distance ⟨r1, az1, pol1⟩ ⟨r2, az2, pol2⟩ "spherical" none =
      Except.ok (2 * r1 * Real.arcsin (Real.sqrt
        ((1 - Real.cos (pol2 - pol1)) / 2 +
          Real.sin pol1 * Real.sin pol2 *
            ((1 - Real.cos (az2 - az1)) / 2)))) := by
  simp [great_circle_distance]

/-- C1: in the spherical coordinate system with no radius override,
`great_circle_distance` returns exactly
`2·R·arcsin √((1−cos Δφ)/2 + sin φ₁·sin φ₂·(1−cos Δθ)/2)` with `R` the
first point's radial component (`φ` the polar angle, `θ` the azimuth);
in particular two equatorial points 90 degrees apart are `R·π/2` apart. -/
theorem great_circle_distance_spherical_formula :
    (∀ r1 r2 az1 az2 pol1 pol2 : ℝ,
      great_circle_distance ⟨r1, az1, pol1⟩ ⟨r2, az2, pol2⟩ "spherical" none =
        Except.ok (2 * r1 * Real.arcsin (Real.sqrt
          ((1 - Real.cos (pol2 - pol1)) / 2 +
            Real.sin pol1 * Real.sin pol2 *
              ((1 - Real.cos (az2 - az1)) / 2))))) ∧
    (∀ R : ℝ,
      great_circle_distance ⟨R, 0, Real.pi / 2⟩ ⟨R, Real.pi / 2, Real.pi / 2⟩
          "spherical" none = Except.ok (R * Real.pi / 2)) := by
  refine ⟨gcd_spherical_eval, fun R => ?_⟩
  rw [gcd_spherical_eval R R 0 (Real.pi / 2) (Real.pi / 2) (Real.pi / 2)]
  have harg : (1 - Real.cos (Real.pi / 2 - Real.pi / 2)) / 2 +
      Real.sin (Real.pi / 2) * Real.sin (Real.pi / 2) *
        ((1 - Real.cos (Real.pi / 2 - 0)) / 2) = 1 / 2 := by
    rw [sub_self, Real.cos_zero, sub_zero, Real.cos_pi_div_two,
      Real.sin_pi_div_two]
    norm_num
  rw [harg, arcsin_sqrt_half]
  exact congrArg Except.ok (by ring)

/-- C4: `sph2geo` with a given `degrees` flag is the exact inverse of
`geo2sph` with the same flag, on all four supported shapes: single 2- or
3-component points and batches of either. -/
theorem geo_sph_roundtrip :
    (∀ (g : Vec2) (d : Bool), sph2geo2 (geo2sph2 g d) d = g) ∧
    (∀ (g : Vec3) (d : Bool), sph2geo3 (geo2sph3 g d) d = g) ∧
    (∀ (l : List Vec2) (d : Bool), sph2geo2B (geo2sph2B l d) d = l) ∧
    (∀ (l : List Vec3) (d : Bool), sph2geo3B (geo2sph3B l d) d = l) := by
  have h2 : ∀ (g : Vec2) (d : Bool), sph2geo2 (geo2sph2 g d) d = g := by
    intro g d
    cases d <;> ext <;>
      simp [geo2sph2, sph2geo2, deg2rad, rad2deg] <;> field_simp
  have h3 : ∀ (g : Vec3) (d : Bool), sph2geo3 (geo2sph3 g d) d = g := by
    intro g d
    cases d <;> ext <;>
      simp [geo2sph3, sph2geo3, deg2rad, rad2deg] <;> field_simp
  refine ⟨h2, h3, ?_, ?_⟩
  · intro l d
    rw [sph2geo2B, geo2sph2B, List.map_map]
    have hid : ((fun v => sph2geo2 v d) ∘ fun v => geo2sph2 v d) = id := by
      funext v; exact h2 v d
    rw [hid, List.map_id]
  · intro l d
    rw [sph2geo3B, geo2sph3B, List.map_map]
    have hid : ((fun v => sph2geo3 v d) ∘ fun v => geo2sph3 v d) = id := by
      funext v; exact h3 v d
    rw [hid, List.map_id]

/-- C8: every transform is shape-preserving on batches: the output list
has the input's length and row `i` of the output is exactly the
single-point transform of row `i` of the input (so no point is dropped,
added, or reordered); all components are real-valued. -/
theorem transforms_shape_preserving :
    (∀ (l : List Vec3) (d : Bool),
      (cart2sphB l d).length = l.length ∧
      (sph2cartB l d).length = l.length ∧
      (geo2sph3B l d).length = l.length ∧
      (sph2geo3B l d).length = l.length ∧
      ∀ i : ℕ,
        (cart2sphB l d)[i]? = (l[i]?).map (fun v => cart2sph v d) ∧
        (sph2cartB l d)[i]? = (l[i]?).map (fun v => sph2cart v d) ∧
        (geo2sph3B l d)[i]? = (l[i]?).map (fun v => geo2sph3 v d) ∧
        (sph2geo3B l d)[i]? = (l[i]?).map (fun v => sph2geo3 v d)) ∧
    (∀ (l : List Vec2) (d : Bool),
      (geo2sph2B l d).length = l.length ∧
      (sph2geo2B l d).length = l.length ∧
      (cart2polarB l d).length = l.length ∧
      ∀ i : ℕ,
        (geo2sph2B l d)[i]? = (l[i]?).map (fun v => geo2sph2 v d) ∧
        (sph2geo2B l d)[i]? = (l[i]?).map (fun v => sph2geo2 v d) ∧
        (cart2polarB l d)[i]? = (l[i]?).map (fun v => cart2polar v d)) := by
  constructor
  · intro l d
    refine ⟨by simp [cart2sphB], by simp [sph2cartB], by simp [geo2sph3B],
      by simp [sph2geo3B], fun i => ⟨?_, ?_, ?_, ?_⟩⟩ <;>
      simp [cart2sphB, sph2cartB, geo2sph3B, sph2geo3B]
  · intro l d
    refine ⟨by simp [geo2sph2B], by simp [sph2geo2B], by simp [cart2polarB],
      fun i => ⟨?_, ?_, ?_⟩⟩ <;>
      simp [geo2sph2B, sph2geo2B, cart2polarB]

/-- A spherical point of radius 1 maps to a cartesian unit vector. -/
theorem sph2cart_unit_dot (az pol : ℝ) :
    dot3 (sph2cart ⟨1, az, pol⟩) (sph2cart ⟨1, az, pol⟩) = 1 := by
  simp only [dot3, sph2cart, Bool.false_eq_true, if_false]
  linear_combination (Real.sin pol) ^ 2 * Real.sin_sq_add_cos_sq az +
    Real.sin_sq_add_cos_sq pol

/-- C9: with identical endpoints the great-circle path generator computes
a zero angular separation, and its sample count `n = ⌈angle / res⌉` is 0,
in particular at most one sample: the path (slerp at `n` evenly spaced
parameters) is degenerate. -/
theorem fgc_degenerate (g : Vec2) (res : ℝ) :
    fgc_angle g g = 0 ∧ fgc_npts g g res = 0 ∧ fgc_npts g g res ≤ 1 := by
  have hangle : fgc_angle g g = 0 := by
    have hg : geo2sph3 ⟨1, g.c0, g.c1⟩ = ⟨1, deg2rad g.c0, deg2rad (90 - g.c1)⟩ := by
      simp [geo2sph3]
    simp only [fgc_angle]
    rw [hg, sph2cart_unit_dot, Real.arccos_one]
    simp [rad2deg]
  have hn : fgc_npts g g res = 0 := by
    simp only [fgc_npts]
    rw [hangle, zero_div, Int.ceil_zero]
  exact ⟨hangle, hn, by rw [hn]; norm_num⟩

/-- Single-point cartesian → spherical → cartesian round trip, away from
the origin. -/
theorem cart_roundtrip_aux (x y z : ℝ)
    (h : Real.sqrt (x ^ 2 + y ^ 2 + z ^ 2) ≠ 0) :
    sph2cart (cart2sph ⟨x, y, z⟩) = ⟨x, y, z⟩ := by
  have hsum : (0 : ℝ) ≤ x ^ 2 + y ^ 2 + z ^ 2 := by positivity
  have hr0 : 0 < Real.sqrt (x ^ 2 + y ^ 2 + z ^ 2) :=
    (Real.sqrt_nonneg _).lt_of_ne (Ne.symm h)
  have hr2 : Real.sqrt (x ^ 2 + y ^ 2 + z ^ 2) ^ 2 = x ^ 2 + y ^ 2 + z ^ 2 :=
    Real.sq_sqrt hsum
  have hs2 : Real.sqrt (x ^ 2 + y ^ 2) ^ 2 = x ^ 2 + y ^ 2 :=
    Real.sq_sqrt (by positivity)
  have hzle : |z| ≤ Real.sqrt (x ^ 2 + y ^ 2 + z ^ 2) := by
    rw [← Real.sqrt_sq_eq_abs]
    exact Real.sqrt_le_sqrt (by nlinarith [sq_nonneg x, sq_nonneg y])
  have hdiv : |z / Real.sqrt (x ^ 2 + y ^ 2 + z ^ 2)| ≤ 1 := by
    rw [abs_div, abs_of_pos hr0]
    exact (div_le_one hr0).mpr hzle
  have hcos : Real.cos (Real.arccos (z / Real.sqrt (x ^ 2 + y ^ 2 + z ^ 2))) =
      z / Real.sqrt (x ^ 2 + y ^ 2 + z ^ 2) :=
    Real.cos_arccos (abs_le.mp hdiv).1 (abs_le.mp hdiv).2
  have hS0 : 0 < x ^ 2 + y ^ 2 + z ^ 2 := Real.sqrt_pos.mp hr0
  have hone : (1 : ℝ) - (z / Real.sqrt (x ^ 2 + y ^ 2 + z ^ 2)) ^ 2 =
      (x ^ 2 + y ^ 2) / (x ^ 2 + y ^ 2 + z ^ 2) := by
    rw [div_pow, hr2]
    field_simp
  have hsin : Real.sin (Real.arccos (z / Real.sqrt (x ^ 2 + y ^ 2 + z ^ 2))) =
      Real.sqrt (x ^ 2 + y ^ 2) / Real.sqrt (x ^ 2 + y ^ 2 + z ^ 2) := by
    rw [Real.sin_arccos, hone, Real.sqrt_div (by positivity)]
  rcases eq_or_ne (Real.sqrt (x ^ 2 + y ^ 2)) 0 with hs | hs
  · have hxy : x ^ 2 + y ^ 2 = 0 := by
      have hv := hs2
      rw [hs] at hv
      simpa using hv.symm
    have hx0 : x = 0 := by nlinarith [sq_nonneg x, sq_nonneg y]
    have hy0 : y = 0 := by nlinarith [sq_nonneg x, sq_nonneg y]
    ext
    · simp only [sph2cart, cart2sph, norm3, Bool.false_eq_true, if_false]
      rw [hsin, hs]
      simp [hx0]
    · simp only [sph2cart, cart2sph, norm3, Bool.false_eq_true, if_false]
      rw [hsin, hs]
      simp [hy0]
    · simp only [sph2cart, cart2sph, norm3, Bool.false_eq_true, if_false]
      rw [hcos]
      field_simp
  · have habs : Complex.abs ⟨x, y⟩ = Real.sqrt (x ^ 2 + y ^ 2) := by
      rw [Complex.abs_apply, Complex.normSq_mk]
      congr 1
      ring
    have hne : (⟨x, y⟩ : ℂ) ≠ 0 := by
      intro h0
      apply hs
      have hz0 : Complex.abs ⟨x, y⟩ = 0 := by rw [h0]; simp
      rw [habs] at hz0
      exact hz0
    have hcosA : Real.cos (arctan2 y x) = x / Real.sqrt (x ^ 2 + y ^ 2) := by
      rw [arctan2, Complex.cos_arg hne, habs]
    have hsinA : Real.sin (arctan2 y x) = y / Real.sqrt (x ^ 2 + y ^ 2) := by
      rw [arctan2, Complex.sin_arg, habs]
    ext
    · simp only [sph2cart, cart2sph, norm3, Bool.false_eq_true, if_false]
      rw [hsin, hcosA]
      field_simp
    · simp only [sph2cart, cart2sph, norm3, Bool.false_eq_true, if_false]
      rw [hsin, hsinA]
      field_simp
    · simp only [sph2cart, cart2sph, norm3, Bool.false_eq_true, if_false]
      rw [hcos]
      field_simp

/-- C3: for every 3-vector of nonzero Euclidean norm, converting to
spherical coordinates and back returns the vector exactly (so in
particular within any floating-point tolerance), both on single points
and on batches. -/
theorem sph2cart_cart2sph_roundtrip :
    (∀ v : Vec3, norm3 v ≠ 0 → sph2cart (cart2sph v) = v) ∧
    (∀ l : List Vec3, (∀ v ∈ l, norm3 v ≠ 0) →
      sph2cartB (cart2sphB l) = l) := by
  have hsingle : ∀ v : Vec3, norm3 v ≠ 0 → sph2cart (cart2sph v) = v := by
    intro v hv
    obtain ⟨x, y, z⟩ := v
    exact cart_roundtrip_aux x y z hv
  refine ⟨hsingle, fun l hl => ?_⟩
  rw [sph2cartB, cart2sphB, List.map_map]
  have hcongr : ∀ v ∈ l,
      ((fun v => sph2cart v) ∘ fun v => cart2sph v) v = id v := by
    intro v hv
    exact hsingle v (hl v hv)
  rw [List.map_congr_left hcongr, List.map_id]

/-- Witness for C3 at the concrete vector `(3, 4, 12)` of norm 13. -/
theorem sph2cart_cart2sph_roundtrip_witness :
    norm3 ⟨3, 4, 12⟩ ≠ 0 ∧
      sph2cart (cart2sph ⟨3, 4, 12⟩) = (⟨3, 4, 12⟩ : Vec3) := by
  have h : norm3 (⟨3, 4, 12⟩ : Vec3) ≠ 0 := by
    rw [norm3, Real.sqrt_ne_zero']
    norm_num
  exact ⟨h, sph2cart_cart2sph_roundtrip.1 _ h⟩

/-- The haversine payload is symmetric under swapping the two points once
the scale factor `R` is fixed. -/
theorem haversine_symm (R t1 t2 p1 p2 : ℝ) :
    2 * R * Real.arcsin (Real.sqrt ((1 - Real.cos (t2 - t1)) / 2 +
      Real.sin t1 * Real.sin t2 * ((1 - Real.cos (p2 - p1)) / 2))) =
    2 * R * Real.arcsin (Real.sqrt ((1 - Real.cos (t1 - t2)) / 2 +
      Real.sin t2 * Real.sin t1 * ((1 - Real.cos (p1 - p2)) / 2))) := by
  have h1 : Real.cos (t2 - t1) = Real.cos (t1 - t2) := by
    rw [← neg_sub, Real.cos_neg]
  have h2 : Real.cos (p2 - p1) = Real.cos (p1 - p2) := by
    rw [← neg_sub, Real.cos_neg]
  rw [h1, h2, mul_comm (Real.sin t1)]

/-- Evaluation of `great_circle_distance` for a valid coordinate system,
expressed through `used_radius` and the converted arrays. -/
theorem gcd_valid_eval (a b : Vec3) (cs : String) (sr : Option ℝ)
    (hcs : cs = "spherical" ∨ cs = "cartesian") :
    great_circle_distance a b cs sr =
      Except.ok (2 * used_radius a cs sr * Real.arcsin (Real.sqrt
        ((1 - Real.cos ((if cs = "cartesian" then cart2sph b else b).c2 -
            (if cs = "cartesian" then cart2sph a else a).c2)) / 2 +
          Real.sin (if cs = "cartesian" then cart2sph a else a).c2 *
            Real.sin (if cs = "cartesian" then cart2sph b else b).c2 *
            ((1 - Real.cos ((if cs = "cartesian" then cart2sph b else b).c1 -
              (if cs = "cartesian" then cart2sph a else a).c1)) / 2)))) := by
  simp only [great_circle_distance, used_radius, if_pos hcs]
  rfl

/-- C6 counterexample: with the default (absent) radius override the
result is scaled by the FIRST argument's radial component, so swapping
two points of different radii changes the distance: for the points
`(1, 0, π/2)` and `(2, π/2, π/2)` the two call orders give `π/2` and `π`
respectively. -/
theorem great_circle_distance_not_symmetric :
    great_circle_distance ⟨1, 0, Real.pi / 2⟩ ⟨2, Real.pi / 2, Real.pi / 2⟩
        "spherical" none ≠
      great_circle_distance ⟨2, Real.pi / 2, Real.pi / 2⟩ ⟨1, 0, Real.pi / 2⟩
        "spherical" none := by
  have harg1 : (1 - Real.cos (Real.pi / 2 - Real.pi / 2)) / 2 +
      Real.sin (Real.pi / 2) * Real.sin (Real.pi / 2) *
        ((1 - Real.cos (Real.pi / 2 - 0)) / 2) = 1 / 2 := by
    rw [sub_self, Real.cos_zero, sub_zero, Real.cos_pi_div_two,
      Real.sin_pi_div_two]
    norm_num
  have harg2 : (1 - Real.cos (Real.pi / 2 - Real.pi / 2)) / 2 +
      Real.sin (Real.pi / 2) * Real.sin (Real.pi / 2) *
        ((1 - Real.cos (0 - Real.pi / 2)) / 2) = 1 / 2 := by
    rw [sub_self, Real.cos_zero, zero_sub, Real.cos_neg, Real.cos_pi_div_two,
      Real.sin_pi_div_two]
    norm_num
  rw [gcd_spherical_eval, gcd_spherical_eval, harg1, harg2, arcsin_sqrt_half]
  intro hcontra
  injection hcontra with hval
  have hpi := Real.pi_pos
  linarith

/-- C6 amended: `great_circle_distance` is symmetric whenever the radius
it selects is the same for both argument orders — in particular whenever
the two inputs have equal radial components (after any cartesian →
spherical conversion), and always when a truthy (nonzero) `sphere_radius`
override is supplied.  With the default falsy override and unequal radii
the symmetry fails, as the counterexample shows. -/
theorem great_circle_distance_symm_amended :
    (∀ (a b : Vec3) (cs : String) (sr : Option ℝ),
      used_radius a cs sr = used_radius b cs sr →
      great_circle_distance a b cs sr = great_circle_distance b a cs sr) ∧
    (∀ (a b : Vec3) (cs : String) (r : ℝ), r ≠ 0 →
      great_circle_distance a b cs (some r) =
        great_circle_distance b a cs (some r)) := by
  have hmain : ∀ (a b : Vec3) (cs : String) (sr : Option ℝ),
      used_radius a cs sr = used_radius b cs sr →
      great_circle_distance a b cs sr = great_circle_distance b a cs sr := by
    intro a b cs sr hrad
    by_cases hcs : cs = "spherical" ∨ cs = "cartesian"
    · rw [gcd_valid_eval a b cs sr hcs, gcd_valid_eval b a cs sr hcs, hrad]
      exact congrArg Except.ok (haversine_symm _ _ _ _ _)
    · simp only [great_circle_distance]
      rw [if_neg hcs, if_neg hcs]
  refine ⟨hmain, fun a b cs r hr => hmain a b cs (some r) ?_⟩
  simp [used_radius, hr]

/-- Witness for C6 amended: two points sharing radial component 1. -/
theorem great_circle_distance_symm_amended_witness :
    used_radius ⟨1, 0, 0⟩ "spherical" none =
        used_radius ⟨1, 1, 1⟩ "spherical" none ∧
      great_circle_distance ⟨1, 0, 0⟩ ⟨1, 1, 1⟩ "spherical" none =
        great_circle_distance ⟨1, 1, 1⟩ ⟨1, 0, 0⟩ "spherical" none := by
  have h : used_radius ⟨1, 0, 0⟩ "spherical" none =
      used_radius ⟨1, 1, 1⟩ "spherical" none := by
    simp [used_radius]
  exact ⟨h, great_circle_distance_symm_amended.1 _ _ _ _ h⟩
